import Mathlib

/-!
Shallow embedding of `fetch_historical_data.py` (and its near-duplicate
`fetch_KAG_USDT_1h.py`) from the bitcoin-bubbles repository.

Modelling conventions:
* A candle timestamp is an integer number of milliseconds since the Unix
  epoch (`Int`, as Python ints are unbounded); prices and volumes are exact
  rationals (`ℚ`), standing for the decimal values the exchange returns.
* Naive Python `datetime` values are identified with their millisecond
  epoch timestamp (the scripts convert back and forth with
  `datetime.timestamp() * 1000` / `pd.to_datetime(ts, unit='ms')`).
* The ccxt exchange is an oracle: each call of `exchange.fetch_ohlcv`
  consumes the head of a trace of `FetchResult`s (a page of candles, a
  `ccxt.NetworkError`, or any other exception).  An exhausted trace ends
  the loop with what was accumulated (a fuel artifact; theorems about the
  loop quantify over traces).
* `time.sleep` calls are recorded as a list of sleep durations in ms.
-/

namespace BitcoinBubbles

/-- One OHLCV candle as returned by `exchange.fetch_ohlcv`:
`[timestamp_ms, open, high, low, close, volume]`. -/
structure Candle where
  ts : Int
  open' : ℚ
  high : ℚ
  low : ℚ
  close : ℚ
  volume : ℚ
  deriving Repr, DecidableEq

/-- Outcome of one `exchange.fetch_ohlcv` call inside the pagination loop:
a page of candles, a `ccxt.NetworkError`, or any other exception. -/
inductive FetchResult where
  | page (ohlcv : List Candle)
  | netError
  | otherError
  deriving Repr, DecidableEq

/-- `_timeframe_delta_ms` (fetch_historical_data.py lines 131-139): one
timeframe in milliseconds.  `int(timeframe.rstrip('m'))` is modelled by
`dropRightWhile`/`toNat?`; the `ValueError` path of `int` on a
non-numeric string is not reachable for the timeframes the scripts use. -/
def timeframeDeltaMs (timeframe : String) : Int :=
  if timeframe = "1h" then 60 * 60 * 1000
  else if timeframe = "1d" then 24 * 60 * 60 * 1000
  else if timeframe.endsWith "m" then
    (((timeframe.dropRightWhile (fun c => c = 'm')).toNat?.getD 0 : Nat) : Int) * 60 * 1000
  else 60 * 60 * 1000

/-- The pagination loop of `fetch_historical_data` (lines 55-103), one
trace element per `fetch_ohlcv` attempt.  Returns the accumulated
`all_data` list and the recorded sleeps (ms).  Branches, in source order:
empty page → stop; filter candles with `ts ≤ end`; short page
(`len < page_limit - 1`) → stop; `last_ts ≥ end` → stop; otherwise advance
the cursor to `last_ts + delta` and sleep `rateLimit/1000` s = 1200 ms.
`ccxt.NetworkError` → sleep 5 s and retry the same cursor; any other
exception → stop with the data accumulated so far. -/
def fetchLoop (pageLimit endMs deltaMs : Int) :
    List FetchResult → Option Int → List Candle → List Candle × List Nat
  | [], _, acc => (acc, [])
  | FetchResult.netError :: evs, cur, acc =>
      let r := fetchLoop pageLimit endMs deltaMs evs cur acc
      (r.1, 5000 :: r.2)
  | FetchResult.otherError :: _, _, acc => (acc, [])
  | FetchResult.page ohlcv :: evs, _, acc =>
      if ohlcv.isEmpty then (acc, [])
      else
        let lastTs := ((ohlcv.getLast?).map Candle.ts).getD 0
        let filtered := ohlcv.filter (fun c => c.ts ≤ endMs)
        let acc' := acc ++ filtered
        if (ohlcv.length : Int) < pageLimit - 1 then (acc', [])
        else if lastTs ≥ endMs then (acc', [])
        else
          let r := fetchLoop pageLimit endMs deltaMs evs (some (lastTs + deltaMs)) acc'
          (r.1, 1200 :: r.2)

/-- `df[~df.index.duplicated(keep='first')]` on the timestamp index:
keep a row iff its timestamp did not occur earlier; `seen` is the set of
timestamps already encountered. -/
def dedupKeepFirstAux (seen : List Int) : List Candle → List Candle
  | [] => []
  | c :: rest =>
      if c.ts ∈ seen then dedupKeepFirstAux seen rest
      else c :: dedupKeepFirstAux (c.ts :: seen) rest

/-- Deduplication keeping the first occurrence of each timestamp
(fetch_historical_data.py line 116). -/
def dedupKeepFirst (l : List Candle) : List Candle :=
  dedupKeepFirstAux [] l

/-- `combined[~combined.index.duplicated(keep='last')]` (line 225): keep a
row iff no later row has the same timestamp. -/
def dedupKeepLast : List Candle → List Candle
  | [] => []
  | c :: rest =>
      if rest.any (fun d => d.ts = c.ts) then dedupKeepLast rest
      else c :: dedupKeepLast rest

/-- Ordering of candles by timestamp, used to model `df.sort_index()`
(after deduplication all index values are distinct, so any correct sort
yields the unique sorted permutation). -/
def tsLE (a b : Candle) : Prop := a.ts ≤ b.ts

instance : DecidableRel tsLE := fun a b => inferInstanceAs (Decidable (a.ts ≤ b.ts))

instance : IsTotal Candle tsLE := ⟨fun a b => le_total a.ts b.ts⟩

instance : IsTrans Candle tsLE := ⟨fun _ _ _ h h' => le_trans h h'⟩

/-- `df.sort_index()` on the timestamp index. -/
def sortByTs (l : List Candle) : List Candle :=
  List.insertionSort tsLE l

/-- Lines 110-120 of `fetch_historical_data`: build the DataFrame from
`all_data`, drop duplicate timestamps keeping the first, sort by
timestamp, and apply the final filter `df.index <= end_date`
(equivalent to `ts ≤ end_timestamp_ms` on integer-ms timestamps, since
`end_timestamp_ms = int(end_date.timestamp() * 1000)`). -/
def postProcess (endMs : Int) (raw : List Candle) : List Candle :=
  (sortByTs (dedupKeepFirst raw)).filter (fun c => c.ts ≤ endMs)

/-- Line 36: default end date when `end_date is None`:
`datetime.now().replace(minute=0, second=0, microsecond=0) - timedelta(hours=1)`,
i.e. the current time truncated down to the hour, minus one hour.
`nowMs` is the current wall-clock time in ms (non-negative). -/
def defaultEndMs (nowMs : Nat) : Int :=
  ((nowMs / 3600000 : Nat) : Int) * 3600000 - 3600000

/-- `fetch_historical_data(exchange_id, symbol, timeframe, start_date,
end_date, page_limit)` with the exchange replaced by the oracle trace.
`startOpt`/`endOpt` are the optional `start_date`/`end_date` as ms;
`nowMs` is the current time used when `end_date is None`.  Returns the
resulting dataset (as candles, sorted/deduped/truncated) and the sleeps. -/
def fetchHistoricalData (trace : List FetchResult) (timeframe : String)
    (startOpt endOpt : Option Int) (nowMs : Nat) (pageLimit : Int) :
    List Candle × List Nat :=
  let endMs := endOpt.getD (defaultEndMs nowMs)
  let r := fetchLoop pageLimit endMs (timeframeDeltaMs timeframe) trace startOpt []
  (postProcess endMs r.1, r.2)

/-- The merge step of `expand_csv` (lines 224-226):
`pd.concat([existing_ohlcv, new_df])`, drop duplicate timestamps keeping
the last, sort by timestamp. -/
def mergeCombined (existing newRows : List Candle) : List Candle :=
  sortByTs (dedupKeepLast (existing ++ newRows))

theorem dedupKeepFirstAux_spec (l : List Candle) :
    ∀ seen : List Int, ((dedupKeepFirstAux seen l).map Candle.ts).Nodup ∧
      ∀ t ∈ (dedupKeepFirstAux seen l).map Candle.ts, t ∉ seen := by
  induction l with
  | nil => intro seen; simp [dedupKeepFirstAux]
  | cons c rest ih =>
      intro seen
      by_cases hmem : c.ts ∈ seen
      · simpa [dedupKeepFirstAux, hmem] using ih seen
      · have h := ih (c.ts :: seen)
        refine ⟨?_, ?_⟩
        · simp only [dedupKeepFirstAux, if_neg hmem, List.map_cons, List.nodup_cons]
          exact ⟨fun hin => (h.2 _ hin) (List.mem_cons_self _ _), h.1⟩
        · intro t ht
          simp only [dedupKeepFirstAux, if_neg hmem, List.map_cons, List.mem_cons] at ht
          rcases ht with rfl | ht
          · exact hmem
          · exact fun hts => (h.2 t ht) (List.mem_cons_of_mem _ hts)

theorem dedupKeepFirst_ts_nodup (l : List Candle) :
    ((dedupKeepFirst l).map Candle.ts).Nodup :=
  (dedupKeepFirstAux_spec l []).1

theorem mem_dedupKeepLast {c : Candle} {l : List Candle}
    (hc : c ∈ dedupKeepLast l) : c ∈ l := by
  induction l with
  | nil => simp [dedupKeepLast] at hc
  | cons a rest ih =>
      by_cases h : rest.any (fun d => d.ts = a.ts)
      · rw [dedupKeepLast, if_pos h] at hc
        exact List.mem_cons_of_mem _ (ih hc)
      · rw [dedupKeepLast, if_neg h] at hc
        rcases List.mem_cons.mp hc with rfl | hc
        · exact List.mem_cons_self _ _
        · exact List.mem_cons_of_mem _ (ih hc)

theorem dedupKeepLast_ts_nodup (l : List Candle) :
    ((dedupKeepLast l).map Candle.ts).Nodup := by
  induction l with
  | nil => simp [dedupKeepLast]
  | cons a rest ih =>
      by_cases h : rest.any (fun d => d.ts = a.ts)
      · rw [dedupKeepLast, if_pos h]; exact ih
      · rw [dedupKeepLast, if_neg h, List.map_cons, List.nodup_cons]
        refine ⟨?_, ih⟩
        intro hin
        rcases List.mem_map.mp hin with ⟨d, hd, hts⟩
        have : rest.any (fun d => d.ts = a.ts) := by
          rw [List.any_eq_true]
          exact ⟨d, mem_dedupKeepLast hd, by simpa using hts⟩
        exact h this

theorem sortByTs_perm (l : List Candle) : List.Perm (sortByTs l) l :=
  List.perm_insertionSort tsLE l

theorem sortByTs_sorted (l : List Candle) : List.Sorted tsLE (sortByTs l) :=
  List.sorted_insertionSort tsLE l

theorem sortByTs_ts_nodup {l : List Candle}
    (h : (l.map Candle.ts).Nodup) : ((sortByTs l).map Candle.ts).Nodup :=
  (((sortByTs_perm l).map Candle.ts).nodup_iff).mpr h

/-- A list sorted by `tsLE` whose timestamps are pairwise distinct is
strictly increasing in timestamp. -/
theorem sorted_nodup_pairwise_lt {l : List Candle}
    (hs : List.Sorted tsLE l) (hn : (l.map Candle.ts).Nodup) :
    l.Pairwise (fun a b => a.ts < b.ts) := by
  have hne : l.Pairwise (fun a b => a.ts ≠ b.ts) := List.pairwise_map.mp hn
  exact (hs.and hne).imp (fun h => lt_of_le_of_ne h.1 h.2)

/-- C2: every dataset produced by the pagination loop and every dataset
produced by an expansion merge is strictly increasing in timestamp. -/
theorem result_strictly_increasing
    (trace : List FetchResult) (timeframe : String)
    (startOpt endOpt : Option Int) (nowMs : Nat) (pageLimit : Int)
    (existing newRows : List Candle) :
    (fetchHistoricalData trace timeframe startOpt endOpt nowMs pageLimit).1.Pairwise
      (fun a b => a.ts < b.ts) ∧
    (mergeCombined existing newRows).Pairwise (fun a b => a.ts < b.ts) := by
  constructor
  · have h := sorted_nodup_pairwise_lt
      (sortByTs_sorted (dedupKeepFirst (fetchLoop pageLimit
        (endOpt.getD (defaultEndMs nowMs)) (timeframeDeltaMs timeframe) trace startOpt []).1))
      (sortByTs_ts_nodup (dedupKeepFirst_ts_nodup _))
    exact h.filter _
  · exact sorted_nodup_pairwise_lt (sortByTs_sorted _)
      (sortByTs_ts_nodup (dedupKeepLast_ts_nodup _))

theorem filter_ts_eq_nil {l : List Candle} {t : Int}
    (h : ¬ l.any (fun d => d.ts = t)) :
    l.filter (fun d => d.ts = t) = [] := by
  rw [List.filter_eq_nil_iff]
  intro a ha hts
  exact h (List.any_eq_true.mpr ⟨a, ha, hts⟩)

/-- `dedupKeepLast` keeps, for each timestamp, exactly the last row of the
input list that carries it. -/
theorem dedupKeepLast_filter_ts (t : Int) :
    ∀ l : List Candle, (dedupKeepLast l).filter (fun d => d.ts = t) =
      ((l.filter (fun d => d.ts = t)).getLast?).toList := by
  intro l
  induction l with
  | nil => simp [dedupKeepLast]
  | cons c rest ih =>
      by_cases h : rest.any (fun d => d.ts = c.ts)
      · rw [dedupKeepLast, if_pos h]
        by_cases hct : c.ts = t
        · rcases List.any_eq_true.mp h with ⟨d, hd, hdts⟩
          have hdts' : d.ts = c.ts := of_decide_eq_true hdts
          have hne : rest.filter (fun d => d.ts = t) ≠ [] := by
            intro hnil
            rw [List.filter_eq_nil_iff] at hnil
            exact hnil d hd (by simp [hdts', hct])
          rcases hx : rest.filter (fun d => d.ts = t) with _ | ⟨x, xs⟩
          · exact absurd hx hne
          · rw [List.filter_cons_of_pos (by simp [hct]), hx,
              List.getLast?_cons_cons, ih, hx]
        · rw [List.filter_cons_of_neg (by simp [hct]), ih]
      · rw [dedupKeepLast, if_neg h]
        by_cases hct : c.ts = t
        · have hrest : rest.filter (fun d => d.ts = t) = [] := by
            apply filter_ts_eq_nil
            rw [← hct] at *
            exact h
          have hdrest : (dedupKeepLast rest).filter (fun d => d.ts = t) = [] := by
            rw [ih, hrest]; rfl
          rw [List.filter_cons_of_pos (by simp [hct]), hdrest,
            List.filter_cons_of_pos (by simp [hct]), hrest]
          rfl
        · rw [List.filter_cons_of_neg (by simp [hct]),
            List.filter_cons_of_neg (by simp [hct]), ih]

/-- In a list with pairwise-distinct timestamps, filtering on the
timestamp of a member yields exactly that member. -/
theorem filter_ts_of_nodup {l : List Candle} {c : Candle}
    (hn : (l.map Candle.ts).Nodup) (hc : c ∈ l) :
    l.filter (fun d => d.ts = c.ts) = [c] := by
  induction l with
  | nil => simp at hc
  | cons a rest ih =>
      rw [List.map_cons, List.nodup_cons] at hn
      rcases List.mem_cons.mp hc with rfl | hc
      · rw [List.filter_cons_of_pos (by simp)]
        have : rest.filter (fun d => d.ts = c.ts) = [] := by
          rw [List.filter_eq_nil_iff]
          intro d hd hdts
          exact hn.1 (List.mem_map.mpr ⟨d, hd, of_decide_eq_true hdts⟩)
        rw [this]
      · have hne : ¬ a.ts = c.ts := by
          intro hts
          exact hn.1 (hts ▸ List.mem_map.mpr ⟨c, hc, rfl⟩)
        rw [List.filter_cons_of_neg (by simp [hne]), ih hn.2 hc]

/-- C3: when `expand_csv` merges newly fetched rows into the existing
dataset and both contain a row for timestamp `c.ts`, the merged dataset
keeps exactly one row for that timestamp, namely the newly fetched row
`c` (last-write-wins: `keep='last'` after `concat([existing, new])`). -/
theorem merge_last_write_wins
    (existing newRows : List Candle) (c : Candle)
    (hnodup : (newRows.map Candle.ts).Nodup) (hc : c ∈ newRows)
    (_hboth : ∃ d ∈ existing, d.ts = c.ts) :
    (mergeCombined existing newRows).filter (fun d => d.ts = c.ts) = [c] := by
  have hdedup : (dedupKeepLast (existing ++ newRows)).filter (fun d => d.ts = c.ts) = [c] := by
    rw [dedupKeepLast_filter_ts, List.filter_append,
      filter_ts_of_nodup hnodup hc]
    rw [List.getLast?_concat]
    rfl
  have hperm : List.Perm ((mergeCombined existing newRows).filter (fun d => d.ts = c.ts))
      ((dedupKeepLast (existing ++ newRows)).filter (fun d => d.ts = c.ts)) :=
    (sortByTs_perm (dedupKeepLast (existing ++ newRows))).filter _
  rw [hdedup] at hperm
  exact List.perm_singleton.mp hperm

/-- Witness for C3 at a concrete overlap: existing row at ts 1000 with
close 2 is replaced by the newly fetched row at ts 1000 with close 3. -/
theorem merge_last_write_wins_witness :
    (mergeCombined [⟨1000, 1, 1, 1, 2, 1⟩] [⟨1000, 1, 1, 1, 3, 1⟩, ⟨2000, 1, 1, 1, 4, 1⟩]).filter
      (fun d => d.ts = (⟨1000, 1, 1, 1, 3, 1⟩ : Candle).ts) = [⟨1000, 1, 1, 1, 3, 1⟩] :=
  merge_last_write_wins [⟨1000, 1, 1, 1, 2, 1⟩] [⟨1000, 1, 1, 1, 3, 1⟩, ⟨2000, 1, 1, 1, 4, 1⟩]
    ⟨1000, 1, 1, 1, 3, 1⟩ (by decide) (by decide)
    ⟨⟨1000, 1, 1, 1, 2, 1⟩, by decide, by decide⟩

/-- C1: every candle in the pagination result respects the end boundary. -/
theorem mem_postProcess_le_end {endMs : Int} {raw : List Candle} {c : Candle}
    (hc : c ∈ postProcess endMs raw) : c.ts ≤ endMs := by
  have := List.of_mem_filter hc
  exact of_decide_eq_true this

/-- C1: for every run of the pagination loop with a given end boundary
`endMs`, every candle in the returned dataset has timestamp `≤ endMs`. -/
theorem fetch_result_le_end_boundary
    (trace : List FetchResult) (timeframe : String) (startOpt : Option Int)
    (endMs : Int) (nowMs : Nat) (pageLimit : Int) (c : Candle)
    (hc : c ∈ (fetchHistoricalData trace timeframe startOpt (some endMs) nowMs pageLimit).1) :
    c.ts ≤ endMs := by
  exact mem_postProcess_le_end hc

/-- Witness for C1: a concrete one-page run in which the returned candle
indeed respects the end boundary. -/
theorem fetch_result_le_end_boundary_witness :
    (⟨0, 1, 2, 0, 1, 5⟩ : Candle) ∈
      (fetchHistoricalData [FetchResult.page [⟨0, 1, 2, 0, 1, 5⟩]] "1h"
        none (some 10) 0 200).1 ∧
    (⟨0, 1, 2, 0, 1, 5⟩ : Candle).ts ≤ 10 :=
  ⟨by decide,
   fetch_result_le_end_boundary [FetchResult.page [⟨0, 1, 2, 0, 1, 5⟩]] "1h"
     none 10 0 200 ⟨0, 1, 2, 0, 1, 5⟩ (by decide)⟩

/-- C4: the pagination loop stops as soon as a page has fewer than
`page_limit - 1` candles (lines 78-86: this check precedes the
end-boundary check), even when the last candle's timestamp is still
strictly before the end boundary: the result is the data accumulated so
far plus this page's boundary-filtered candles, independent of any later
trace events (`rest` does not occur on the right-hand side). -/
theorem short_page_terminates
    (pageLimit endMs deltaMs : Int) (p : List Candle)
    (rest : List FetchResult) (cur : Option Int) (acc : List Candle)
    (hne : p ≠ []) (hshort : (p.length : Int) < pageLimit - 1)
    (_hbefore : (((p.getLast?).map Candle.ts).getD 0) < endMs) :
    fetchLoop pageLimit endMs deltaMs (FetchResult.page p :: rest) cur acc
      = (acc ++ p.filter (fun c => c.ts ≤ endMs), []) := by
  rw [fetchLoop]
  rw [if_neg (by simpa [List.isEmpty_iff] using hne)]
  simp only [if_pos hshort]

/-- Witness for C4: a single short page (1 candle, page limit 200) whose
last timestamp 0 is strictly before the end boundary 10⁹ terminates the
loop; the pending later page at timestamp 3600000 is never fetched. -/
theorem short_page_terminates_witness :
    ([⟨0, 1, 1, 1, 1, 1⟩] : List Candle) ≠ [] ∧
    ((([⟨0, 1, 1, 1, 1, 1⟩] : List Candle).length : Int) < 200 - 1) ∧
    (((([⟨0, 1, 1, 1, 1, 1⟩] : List Candle).getLast?).map Candle.ts).getD 0) < 1000000000 ∧
    fetchLoop 200 1000000000 3600000
        [FetchResult.page [⟨0, 1, 1, 1, 1, 1⟩],
         FetchResult.page [⟨3600000, 1, 1, 1, 1, 1⟩]] none []
      = ([] ++ ([⟨0, 1, 1, 1, 1, 1⟩] : List Candle).filter (fun c => c.ts ≤ 1000000000), []) :=
  ⟨by decide, by decide, by decide,
   short_page_terminates 200 1000000000 3600000 [⟨0, 1, 1, 1, 1, 1⟩]
     [FetchResult.page [⟨3600000, 1, 1, 1, 1, 1⟩]] none []
     (by decide) (by decide) (by decide)⟩

/-- Modelled from the spec for the C5 refinement comparison only: the
spec/claim say the end boundary "defaults to now, truncated to the
timeframe boundary". -/
def specDefaultEndMs (timeframe : String) (nowMs : Nat) : Int :=
  ((nowMs : Int) / timeframeDeltaMs timeframe) * timeframeDeltaMs timeframe

/-- C5 counterexample: at now = 91800000 ms (25 h 30 min after the
epoch), the code's default end boundary (hour truncation minus one hour,
line 36: 86400000) differs from the claimed truncation to the (1h)
timeframe boundary (90000000). -/
theorem default_end_not_timeframe_truncation :
    defaultEndMs 91800000 ≠ specDefaultEndMs "1h" 91800000 := by decide

/-- C5 amended: when the pagination loop is called with no end
timestamp, the effective end boundary defaults to the current time
truncated down to the hour, minus one hour (`defaultEndMs`), for every
timeframe: no returned candle's timestamp exceeds it. -/
theorem default_end_bounds_result
    (trace : List FetchResult) (timeframe : String) (startOpt : Option Int)
    (nowMs : Nat) (pageLimit : Int) (c : Candle)
    (hc : c ∈ (fetchHistoricalData trace timeframe startOpt none nowMs pageLimit).1) :
    c.ts ≤ defaultEndMs nowMs :=
  mem_postProcess_le_end hc

/-- Witness for C5's amended theorem: with now = 2 h after the epoch the
default end boundary is 1 h, and the candle at timestamp 0 respects it. -/
theorem default_end_bounds_result_witness :
    (⟨0, 1, 1, 1, 1, 1⟩ : Candle) ∈
      (fetchHistoricalData [FetchResult.page [⟨0, 1, 1, 1, 1, 1⟩]] "1h"
        none none 7200000 200).1 ∧
    (⟨0, 1, 1, 1, 1, 1⟩ : Candle).ts ≤ defaultEndMs 7200000 :=
  ⟨by decide,
   default_end_bounds_result [FetchResult.page [⟨0, 1, 1, 1, 1, 1⟩]] "1h"
     none 7200000 200 ⟨0, 1, 1, 1, 1, 1⟩ (by decide)⟩

/-- C6: a `ccxt.NetworkError` during a page fetch records a fixed 5 s
sleep and retries the same page — same cursor `cur`, same accumulator
`acc`, loop otherwise unchanged (so the final dataset is unchanged);
any other exception stops the loop, which yields the candles accumulated
before the failure as a partial result instead of propagating the
exception (lines 95-103). -/
theorem network_error_retries_other_error_aborts
    (trace : List FetchResult) (timeframe : String) (startOpt endOpt : Option Int)
    (nowMs : Nat) (pageLimit endMs deltaMs : Int)
    (evs : List FetchResult) (cur : Option Int) (acc : List Candle) :
    (fetchLoop pageLimit endMs deltaMs (FetchResult.netError :: evs) cur acc
      = ((fetchLoop pageLimit endMs deltaMs evs cur acc).1,
         5000 :: (fetchLoop pageLimit endMs deltaMs evs cur acc).2)) ∧
    (fetchLoop pageLimit endMs deltaMs (FetchResult.otherError :: evs) cur acc
      = (acc, [])) ∧
    ((fetchHistoricalData (FetchResult.netError :: trace) timeframe startOpt endOpt
        nowMs pageLimit).1
      = (fetchHistoricalData trace timeframe startOpt endOpt nowMs pageLimit).1) := by
  refine ⟨rfl, rfl, ?_⟩
  simp only [fetchHistoricalData, fetchLoop]

/-- A row of the minimal CSV layout (`DataFrame.to_csv` on a
datetime-indexed OHLCV frame, lines 232/356): the datetime index cell
(pandas writes it with full sub-second precision, so it is identified
with its ms epoch value) followed by open/high/low/close/volume. -/
structure MinimalRow where
  dt : Int
  open' : ℚ
  high : ℚ
  low : ℚ
  close : ℚ
  volume : ℚ
  deriving Repr, DecidableEq

/-- A row of the CryptoDataDownload layout written by
`save_to_cryptodatadownload_format` (lines 238-252): `unix` (ms epoch),
`date` (the `'%Y-%m-%d %H:%M:%S'` string, identified with the
whole-second epoch value it encodes), `symbol`, OHLC, base-asset volume
(`Volume BASE`, the first `Volume `-prefixed column) and quote-asset
volume (`Volume QUOTE`). -/
structure CddRow where
  unix : Int
  date : Int
  symbol : String
  open' : ℚ
  high : ℚ
  low : ℚ
  close : ℚ
  volBase : ℚ
  volQuote : ℚ
  deriving Repr, DecidableEq, Inhabited

/-- numpy/pandas `.round`: round to the nearest integer, ties to even. -/
def roundHalfEven (x : ℚ) : ℤ :=
  if x - ⌊x⌋ < 1 / 2 then ⌊x⌋
  else if 1 / 2 < x - ⌊x⌋ then ⌊x⌋ + 1
  else if 2 ∣ ⌊x⌋ then ⌊x⌋ else ⌊x⌋ + 1

/-- pandas `Series.round(4)`: round to 4 decimal places. -/
def round4 (x : ℚ) : ℚ :=
  (roundHalfEven (x * 10000) : ℚ) / 10000

/-- `save_to_cryptodatadownload_format(df, symbol, output_file)`
(lines 238-252): `unix` is the index in ms (`int64 ns // 10^6`), `date`
its second-truncated formatting (floor division for pre-epoch times),
`Volume BASE` the input volume, and `Volume QUOTE` is recomputed as
`(close * Volume BASE).round(4)`. -/
def saveToCddFormat (symbol : String) (df : List Candle) : List CddRow :=
  df.map fun c =>
    { unix := c.ts
      date := Int.fdiv c.ts 1000
      symbol := symbol
      open' := c.open'
      high := c.high
      low := c.low
      close := c.close
      volBase := c.volume
      volQuote := round4 (c.close * c.volume) }

/-- `DataFrame.to_csv` on the minimal layout. -/
def toCsvMinimal (df : List Candle) : List MinimalRow :=
  df.map fun c => ⟨c.ts, c.open', c.high, c.low, c.close, c.volume⟩

/-- A dataset file on disk, in one of the two layouts; the layout is
detected by the presence of the `unix` and `date` columns (line 150). -/
inductive CsvFile where
  | minimal (rows : List MinimalRow)
  | cdd (rows : List CddRow)
  deriving Repr, DecidableEq

/-- Reading one CryptoDataDownload row (lines 150-156): the datetime
index comes from parsing the `date` string (seconds → ms), and the
volume from the first `Volume `-prefixed column, i.e. `Volume BASE`. -/
def readCddRow (r : CddRow) : Candle :=
  ⟨r.date * 1000, r.open', r.high, r.low, r.close, r.volBase⟩

/-- Reading one minimal-layout row (lines 157-166). -/
def readMinimalRow (r : MinimalRow) : Candle :=
  ⟨r.dt, r.open', r.high, r.low, r.close, r.volume⟩

/-- `_read_existing_csv` (lines 142-166): the candle values read from
the file and the `is_cryptodatadownload_format` flag. -/
def readExistingCsv : CsvFile → List Candle × Bool
  | CsvFile.minimal rows => (rows.map readMinimalRow, false)
  | CsvFile.cdd rows => (rows.map readCddRow, true)

/-- C7 counterexample: a candle whose timestamp is not a whole second
(1500 ms) does not survive an extended-layout round trip: the
`'%Y-%m-%d %H:%M:%S'` date string truncates it to 1000 ms. -/
theorem roundtrip_cdd_counterexample :
    (readExistingCsv (CsvFile.cdd
        (saveToCddFormat "KAG/USDT" [⟨1500, 1, 1, 1, 1, 1⟩]))).1
      ≠ [⟨1500, 1, 1, 1, 1, 1⟩] := by decide

/-- C7 amended: for every dataset whose timestamps are whole seconds
(multiples of 1000 ms — true of all real candle timestamps), writing it
in either layout and reading the file back yields the same candle
values, the extended layout's volume being read back from the renamed
base-asset volume column. -/
theorem read_toCsvMinimal (df : List Candle) :
    (toCsvMinimal df).map readMinimalRow = df := by
  induction df with
  | nil => rfl
  | cons c rest ih =>
      simp only [toCsvMinimal, List.map_cons] at ih ⊢
      rw [ih]
      rfl

theorem read_saveToCddFormat (symbol : String) (df : List Candle)
    (h : ∀ c ∈ df, (1000 : Int) ∣ c.ts) :
    (saveToCddFormat symbol df).map readCddRow = df := by
  induction df with
  | nil => rfl
  | cons c rest ih =>
      have hts : Int.fdiv c.ts 1000 * 1000 = c.ts := by
        rw [Int.fdiv_eq_ediv_of_dvd (h c (List.mem_cons_self _ _))]
        exact Int.ediv_mul_cancel (h c (List.mem_cons_self _ _))
      have hhead : readCddRow
          { unix := c.ts, date := Int.fdiv c.ts 1000, symbol := symbol,
            open' := c.open', high := c.high, low := c.low, close := c.close,
            volBase := c.volume, volQuote := round4 (c.close * c.volume) } = c := by
        show (⟨Int.fdiv c.ts 1000 * 1000, c.open', c.high, c.low, c.close, c.volume⟩ :
          Candle) = c
        rw [hts]
      simp only [saveToCddFormat, List.map_cons] at ih ⊢
      rw [hhead, ih (fun d hd => h d (List.mem_cons_of_mem _ hd))]

theorem roundtrip_both_layouts (symbol : String) (df : List Candle)
    (h : ∀ c ∈ df, (1000 : Int) ∣ c.ts) :
    (readExistingCsv (CsvFile.minimal (toCsvMinimal df))).1 = df ∧
    (readExistingCsv (CsvFile.cdd (saveToCddFormat symbol df))).1 = df :=
  ⟨read_toCsvMinimal df, read_saveToCddFormat symbol df h⟩

/-- Witness for the amended C7 round trip on a concrete one-hour candle. -/
theorem roundtrip_both_layouts_witness :
    (∀ c ∈ ([⟨3600000, 2, 3, 1, 2, 5⟩] : List Candle), (1000 : Int) ∣ c.ts) ∧
    (readExistingCsv (CsvFile.minimal
        (toCsvMinimal [⟨3600000, 2, 3, 1, 2, 5⟩]))).1 = [⟨3600000, 2, 3, 1, 2, 5⟩] ∧
    (readExistingCsv (CsvFile.cdd
        (saveToCddFormat "KAG/USDT" [⟨3600000, 2, 3, 1, 2, 5⟩]))).1 =
      [⟨3600000, 2, 3, 1, 2, 5⟩] :=
  ⟨by decide,
   roundtrip_both_layouts "KAG/USDT" [⟨3600000, 2, 3, 1, 2, 5⟩] (by decide)⟩

/-- The resume cursor of `expand_csv` (lines 187-198), in ms.
Extended layout: `last_ms = int(existing_df['unix'].max())`, multiplied
by 1000 when below `1e12` (epoch seconds), plus one timeframe; the
start date is `datetime.fromtimestamp(start_ms / 1000.0, tz=utc)`, i.e.
exactly this ms value under the UTC identification of datetimes.
Minimal layout: the maximum datetime index plus one timeframe.
(`int(nan)` on an empty frame raises; theorems assume nonempty files.) -/
def resumeStartMs (file : CsvFile) (timeframe : String) : Int :=
  let deltaMs := timeframeDeltaMs timeframe
  match file with
  | CsvFile.cdd rows =>
      let lastMsRaw := ((rows.map CddRow.unix).max?).getD 0
      let lastMs := if lastMsRaw < 10 ^ 12 then lastMsRaw * 1000 else lastMsRaw
      lastMs + deltaMs
  | CsvFile.minimal rows =>
      ((rows.map MinimalRow.dt).max?).getD 0 + deltaMs

/-- The rows fetched by the `fetch_historical_data` call inside
`expand_csv` (lines 200-211): from the resume cursor up to `end_date`
(defaulting to now truncated to the hour, line 201). -/
def expandNewRows (file : CsvFile) (timeframe : String)
    (trace : List FetchResult) (pageLimit : Int) (endOpt : Option Int)
    (nowMs : Nat) : List Candle :=
  (fetchHistoricalData trace timeframe (some (resumeStartMs file timeframe))
    (some (endOpt.getD (((nowMs / 3600000 : Nat) : Int) * 3600000)))
    nowMs pageLimit).1

/-- Result of `expand_csv`: the returned DataFrame (as candle values)
and the file written back, if any. -/
structure ExpandResult where
  rows : List Candle
  written : Option CsvFile
  deriving Repr, DecidableEq

/-- `expand_csv(csv_path, exchange_id, symbol, timeframe, page_limit,
end_date)` (lines 169-235), with the exchange replaced by the oracle
trace.  If the fetch returns nothing the existing rows are returned and
no write happens; otherwise existing and new rows are merged
(last-write-wins, re-sorted) and written back in the file's own layout. -/
def expandCsv (file : CsvFile) (symbol timeframe : String)
    (trace : List FetchResult) (pageLimit : Int) (endOpt : Option Int)
    (nowMs : Nat) : ExpandResult :=
  let newRows := expandNewRows file timeframe trace pageLimit endOpt nowMs
  if newRows = [] then
    { rows := (readExistingCsv file).1, written := none }
  else
    let combined := mergeCombined (readExistingCsv file).1 newRows
    match file with
    | CsvFile.cdd _ =>
        { rows := combined,
          written := some (CsvFile.cdd (saveToCddFormat symbol combined)) }
    | CsvFile.minimal _ =>
        { rows := combined,
          written := some (CsvFile.minimal (toCsvMinimal combined)) }

/-- C8: when the fetch triggered by `expand_csv` returns no new rows,
the dataset file is left unchanged (no write) and the existing rows are
returned as read; hence the file is only overwritten when at least one
new row was fetched. -/
theorem expand_empty_fetch_is_noop
    (file : CsvFile) (symbol timeframe : String) (trace : List FetchResult)
    (pageLimit : Int) (endOpt : Option Int) (nowMs : Nat)
    (hempty : expandNewRows file timeframe trace pageLimit endOpt nowMs = []) :
    expandCsv file symbol timeframe trace pageLimit endOpt nowMs
      = { rows := (readExistingCsv file).1, written := none } := by
  simp [expandCsv, hempty]

/-- Witness for C8: an exhausted oracle trace fetches nothing, and
expansion of a concrete one-row extended file writes nothing. -/
theorem expand_empty_fetch_is_noop_witness :
    expandNewRows (CsvFile.cdd [⟨3600000, 3600, "KAG/USDT", 1, 1, 1, 1, 1, 1⟩])
        "1h" [] 200 none 7200000 = [] ∧
    expandCsv (CsvFile.cdd [⟨3600000, 3600, "KAG/USDT", 1, 1, 1, 1, 1, 1⟩])
        "KAG/USDT" "1h" [] 200 none 7200000
      = { rows := (readExistingCsv
            (CsvFile.cdd [⟨3600000, 3600, "KAG/USDT", 1, 1, 1, 1, 1, 1⟩])).1,
          written := none } :=
  ⟨by decide,
   expand_empty_fetch_is_noop
     (CsvFile.cdd [⟨3600000, 3600, "KAG/USDT", 1, 1, 1, 1, 1, 1⟩])
     "KAG/USDT" "1h" [] 200 none 7200000 (by decide)⟩

/-- C10: the resume cursor computed by `expand_csv` from an
extended-layout file takes the maximum of the `unix` column; a value
below `10^12` is interpreted as epoch seconds and multiplied by 1000,
a value at or above `10^12` is used unchanged as ms, and one timeframe
interval is added (the resulting UTC start date being exactly that ms
value). -/
theorem resume_cursor_cdd (rows : List CddRow) (timeframe : String)
    (_hne : rows ≠ []) :
    (((rows.map CddRow.unix).max?).getD 0 < 10 ^ 12 →
      resumeStartMs (CsvFile.cdd rows) timeframe
        = ((rows.map CddRow.unix).max?).getD 0 * 1000 + timeframeDeltaMs timeframe) ∧
    (10 ^ 12 ≤ ((rows.map CddRow.unix).max?).getD 0 →
      resumeStartMs (CsvFile.cdd rows) timeframe
        = ((rows.map CddRow.unix).max?).getD 0 + timeframeDeltaMs timeframe) := by
  constructor
  · intro h
    rw [resumeStartMs]
    simp only [if_pos h]
  · intro h
    rw [resumeStartMs]
    simp only [if_neg (not_lt.mpr h)]

/-- Witness for C10, exercising both branches: a seconds-valued `unix`
maximum (1.6·10⁹) is scaled to ms, an ms-valued one (1.6·10¹²) is not. -/
theorem resume_cursor_cdd_witness :
    resumeStartMs (CsvFile.cdd [⟨1600000000, 1600000000, "KAG/USDT", 1, 1, 1, 1, 1, 1⟩])
        "1h" = 1600000000 * 1000 + 3600000 ∧
    resumeStartMs (CsvFile.cdd [⟨1600000000000, 1600000000, "KAG/USDT", 1, 1, 1, 1, 1, 1⟩])
        "1h" = 1600000000000 + 3600000 :=
  ⟨by
    have h := (resume_cursor_cdd
      [⟨1600000000, 1600000000, "KAG/USDT", 1, 1, 1, 1, 1, 1⟩] "1h"
      (by decide)).1 (by decide)
    simpa [timeframeDeltaMs] using h,
   by
    have h := (resume_cursor_cdd
      [⟨1600000000000, 1600000000, "KAG/USDT", 1, 1, 1, 1, 1, 1⟩] "1h"
      (by decide)).2 (by decide)
    simpa [timeframeDeltaMs] using h⟩

theorem readCddRow_set_volQuote (q : CddRow → ℚ) (r : CddRow) :
    readCddRow { r with volQuote := q r } = readCddRow r := rfl

/-- C9: every row of a file written in the extended layout carries a
quote-asset volume recomputed as `close * base volume` rounded to 4
decimal places; and the outcome of an expansion of an extended-layout
file (returned rows and written file alike) does not depend on the
quote-volume values previously stored in it. -/
theorem quote_volume_recomputed
    (symbol timeframe : String) (df : List Candle) (rows : List CddRow)
    (q : CddRow → ℚ) (trace : List FetchResult) (pageLimit : Int)
    (endOpt : Option Int) (nowMs : Nat) :
    (∀ r ∈ saveToCddFormat symbol df, r.volQuote = round4 (r.close * r.volBase)) ∧
    expandCsv (CsvFile.cdd (rows.map fun r => { r with volQuote := q r }))
        symbol timeframe trace pageLimit endOpt nowMs
      = expandCsv (CsvFile.cdd rows) symbol timeframe trace pageLimit endOpt nowMs := by
  constructor
  · intro r hr
    rcases List.mem_map.mp hr with ⟨c, _, rfl⟩
    rfl
  · have hread : (readExistingCsv (CsvFile.cdd (rows.map fun r => { r with volQuote := q r }))).1
        = (readExistingCsv (CsvFile.cdd rows)).1 := by
      simp only [readExistingCsv, List.map_map]
      rfl
    have hunix : ((rows.map fun r => { r with volQuote := q r }).map CddRow.unix)
        = rows.map CddRow.unix := by
      rw [List.map_map]
      rfl
    have hstart : resumeStartMs (CsvFile.cdd (rows.map fun r => { r with volQuote := q r }))
        timeframe = resumeStartMs (CsvFile.cdd rows) timeframe := by
      simp only [resumeStartMs, hunix]
    have hnew : expandNewRows (CsvFile.cdd (rows.map fun r => { r with volQuote := q r }))
        timeframe trace pageLimit endOpt nowMs
        = expandNewRows (CsvFile.cdd rows) timeframe trace pageLimit endOpt nowMs := by
      simp only [expandNewRows, hstart]
    simp only [expandCsv, hnew, hread]

/-- Witness for C9's row property at a concrete dataset. -/
theorem quote_volume_recomputed_witness :
    (saveToCddFormat "KAG/USDT" [⟨3600000, 2, 3, 1, 2, 5⟩]).headI ∈
        saveToCddFormat "KAG/USDT" [⟨3600000, 2, 3, 1, 2, 5⟩] ∧
    (saveToCddFormat "KAG/USDT" [⟨3600000, 2, 3, 1, 2, 5⟩]).headI.volQuote
      = round4 ((saveToCddFormat "KAG/USDT" [⟨3600000, 2, 3, 1, 2, 5⟩]).headI.close
          * (saveToCddFormat "KAG/USDT" [⟨3600000, 2, 3, 1, 2, 5⟩]).headI.volBase) :=
  ⟨List.mem_cons_self _ _,
   (quote_volume_recomputed "KAG/USDT" "1h" [⟨3600000, 2, 3, 1, 2, 5⟩] []
      (fun r => r.volQuote) [] 200 none 0).1 _ (List.mem_cons_self _ _)⟩

end BitcoinBubbles
